import Mathlib

/-!
Verification development for the conversational streaming-orchestration
subsystem of the studybuddy-ai-platform ai-service.

The definitions below are a shallow embedding of the Python source:
`app/services/chat_service.py` (ChatService), `app/services/message_service.py`
(MessageService) and `app/services/ai_service.py` (AIService).  Python strings
are Lean `String`s (Python `len` counts characters, as does `String.length`);
Python lists are Lean `List`s; the MongoDB message collection is a Lean list in
insertion order, with `created_at` equal to a monotonically increasing counter,
so the store's ascending-by-`created_at` sort is the identity on a per-session
filter; wall-clock timestamps carry no information the claims depend on and are
abstracted to the constant `0` (every yielded event dict in the source contains
a `timestamp` key, which the embedding mirrors with `timestamp := some 0`).
The external LLM provider is abstracted by the trace of canonical chunks it
yields during one exchange.
-/

/-! ## Python string primitives used by the source -/

/-- Python `str.strip()` on a character list: drop whitespace from both ends. -/
def pyStripChars (l : List Char) : List Char :=
  ((l.dropWhile Char.isWhitespace).reverse.dropWhile Char.isWhitespace).reverse

/-- Python `s.rsplit(' ', 1)[0]`: everything before the last space, or the whole
string when it contains no space. -/
def rsplitHead (l : List Char) : List Char :=
  if ' ' ∈ l then ((l.reverse.dropWhile (fun c => c ≠ ' ')).drop 1).reverse
  else l

/-- Python slicing `l[:i]` for a possibly negative bound `i` (a negative bound
counts from the end, clamped at zero). -/
def pySliceTo (l : List Char) (i : Int) : List Char :=
  if 0 ≤ i then l.take i.toNat else l.take (l.length - (-i).toNat)

/-- Python `str.title()`: upper-case a cased character that follows a non-cased
one, lower-case the rest (cased is modelled as alphabetic). -/
def pyTitleCase : List Char → Bool → List Char
  | [], _ => []
  | c :: cs, prevCased =>
      (if prevCased then c.toLower else c.toUpper) :: pyTitleCase cs c.isAlpha

/-! ## ChatService._generate_session_title -/

/-- Embedding of `ChatService._generate_session_title` (chat_service.py:422).
Empty content yields New Chat; otherwise the stripped content is kept as is
when its length is at most `maxLength` (50 at every call site), and otherwise
cut to its first `maxLength` characters, cut back to the last space among them
when one exists, and suffixed with three dots. -/
def generateSessionTitle (content : String) (maxLength : Nat) : String :=
  if content = "" then "New Chat"
  else
    let t := pyStripChars content.data
    let t := if maxLength < t.length
             then rsplitHead (t.take maxLength) ++ ['.', '.', '.']
             else t
    if t = [] then "New Chat" else String.mk t

/-! ## Helper lemmas about the string primitives -/

theorem dropWhile_length_le (p : Char → Bool) (l : List Char) :
    (l.dropWhile p).length ≤ l.length := by
  induction l with
  | nil => simp [List.dropWhile]
  | cons c cs ih =>
      by_cases h : p c
      · simp [List.dropWhile, h]
        exact Nat.le_trans ih (Nat.le_succ _)
      · simp [List.dropWhile, h]

theorem pyStripChars_length_le (l : List Char) :
    (pyStripChars l).length ≤ l.length := by
  unfold pyStripChars
  rw [List.length_reverse]
  calc ((l.dropWhile Char.isWhitespace).reverse.dropWhile Char.isWhitespace).length
      ≤ (l.dropWhile Char.isWhitespace).reverse.length :=
        dropWhile_length_le _ _
    _ = (l.dropWhile Char.isWhitespace).length := List.length_reverse _
    _ ≤ l.length := dropWhile_length_le _ _

theorem rsplitHead_length_le (l : List Char) :
    (rsplitHead l).length ≤ l.length := by
  unfold rsplitHead
  by_cases h : ' ' ∈ l
  · simp only [h, if_true]
    rw [List.length_reverse]
    calc ((l.reverse.dropWhile (fun c => c ≠ ' ')).drop 1).length
        ≤ (l.reverse.dropWhile (fun c => c ≠ ' ')).length := by
          rw [List.length_drop]; exact Nat.sub_le _ _
      _ ≤ l.reverse.length := dropWhile_length_le _ _
      _ = l.length := List.length_reverse _
  · simp [h]

/-! ## Data model: messages and the per-user store

A `Message` mirrors the document built by `MessageService.create_message`
(message_service.py:51): the fields the claims touch are kept, `metadata` is
narrowed to the only key the orchestrator ever writes (`error`), and ObjectIds
become `Nat`s drawn from the store counter.  A `Store` is one user's view of
the sessions and messages collections; `nextMsgId` doubles as the creation
clock, so list order, id order and `created_at` order coincide. -/

structure Message where
  id : Nat
  session_id : Nat
  role : String
  content : String
  status : String
  errorDetail : Option String := none
  created_at : Nat
  completed_at : Option Nat := none
  regenerated_at : Option Nat := none
deriving Repr, DecidableEq

structure Store where
  sessions : List (Nat × String)
  messages : List Message
  nextMsgId : Nat
  nextSessionId : Nat
deriving Repr, DecidableEq

def initStore : Store := { sessions := [], messages := [], nextMsgId := 0, nextSessionId := 0 }

/-- Embedding of `MessageService.create_message` (message_service.py:26): the
document gets a fresh id, the given role/content, and status defaulting to
completed when the caller passes none (the source's `.get("status", "completed")`).
Session validation always succeeds at the orchestrator call sites modelled
here, so it is not reified. -/
def createMessage (st : Store) (sid : Nat) (role content : String)
    (status : Option String) : Message × Store :=
  let m : Message :=
    { id := st.nextMsgId, session_id := sid, role := role, content := content,
      status := status.getD "completed", created_at := st.nextMsgId }
  (m, { st with messages := st.messages ++ [m], nextMsgId := st.nextMsgId + 1 })

/-- A patch for `MessageService.update_message` restricted to the allowed
fields the orchestrator actually writes (message_service.py:284). -/
structure MsgPatch where
  content : Option String := none
  status : Option String := none
  errorDetail : Option String := none
  completed_at : Option Nat := none
  regenerated_at : Option Nat := none
deriving Repr, DecidableEq

def applyPatch (p : MsgPatch) (m : Message) : Message :=
  { m with
    content := p.content.getD m.content,
    status := p.status.getD m.status,
    errorDetail := (p.errorDetail.map some).getD m.errorDetail,
    completed_at := (p.completed_at.map some).getD m.completed_at,
    regenerated_at := (p.regenerated_at.map some).getD m.regenerated_at }

/-- Embedding of `MessageService.update_message` (message_service.py:257):
a single-document set on the message with the given id. -/
def updateMessage (st : Store) (mid : Nat) (p : MsgPatch) : Store :=
  { st with messages := st.messages.map (fun m => if m.id == mid then applyPatch p m else m) }

def msgById (st : Store) (mid : Nat) : Option Message :=
  st.messages.find? (fun m => m.id == mid)

/-- Embedding of `MessageService.get_session_messages` (message_service.py:195):
the session's messages sorted ascending by `created_at` (identity on the
insertion-ordered store), then `skip(offset).limit(limit)`. -/
def getSessionMessages (st : Store) (sid : Nat) (limit offset : Nat) : List Message :=
  (((st.messages.filter (fun m => m.session_id == sid))).drop offset).take limit

/-! ## ChatService context builders -/

/-- One `{role, content, timestamp}` entry of the list the orchestrator sends
to the provider (chat_service.py:400). -/
structure CtxEntry where
  role : String
  content : String
  timestamp : Nat
deriving Repr, DecidableEq

def toCtxEntry (m : Message) : CtxEntry :=
  { role := m.role, content := m.content, timestamp := m.created_at }

/-- Embedding of `ChatService._get_conversation_context` (chat_service.py:371):
fetch the session messages (ascending, capped at `limit`), iterate them in
`reversed` order, and keep the completed ones. -/
def getConversationContext (st : Store) (sid : Nat) (limit : Nat) : List CtxEntry :=
  (((getSessionMessages st sid limit 0).reverse).filter
      (fun m => m.status == "completed")).map toCtxEntry

/-- Embedding of `ChatService._get_conversation_context_up_to_message`
(chat_service.py:547): fetch the session messages (ascending, limit 1000),
iterate them in `reversed` order, stop at the first id match, and keep the
completed ones scanned before stopping. -/
def getConversationContextUpToMessage (st : Store) (sid mid : Nat) : List CtxEntry :=
  ((((getSessionMessages st sid 1000 0).reverse).takeWhile
        (fun m => !(m.id == mid))).filter
      (fun m => m.status == "completed")).map toCtxEntry

/-! ## Canonical provider chunks and orchestrator events -/

/-- A chunk yielded by `AIService.stream_chat_completion` into
`ChatService.stream_response` (the dicts matched on at chat_service.py:297). -/
inductive Chunk where
  | content (s : String)
  | functionCall (name args : String)
  | functionResult (name result : String)
  | completion (finishReason : String)
  | error (msg : String)
deriving Repr, DecidableEq

def Chunk.isErr : Chunk → Bool
  | Chunk.error _ => true
  | _ => false

/-- One event dict yielded by the orchestrator to its caller.  Every yield in
the source carries a `type` discriminator and a `timestamp` key; payload keys
not present in a given yield are `none`. -/
structure Event where
  etype : String
  message_id : Option Nat := none
  session_id : Option Nat := none
  content : Option String := none
  function_name : Option String := none
  error : Option String := none
  timestamp : Option Nat := none
deriving Repr, DecidableEq

def sessionCreatedEvent (sid : Nat) : Event :=
  { etype := "session_created", session_id := some sid, timestamp := some 0 }

def userMessageCreatedEvent (mid : Nat) : Event :=
  { etype := "user_message_created", message_id := some mid, timestamp := some 0 }

def aiMessageStartedEvent (mid : Nat) : Event :=
  { etype := "ai_message_started", message_id := some mid, timestamp := some 0 }

def contentDeltaEvent (mid : Nat) (s : String) : Event :=
  { etype := "content_delta", message_id := some mid, content := some s, timestamp := some 0 }

def functionCallEvent (mid : Nat) (name : String) : Event :=
  { etype := "function_call", message_id := some mid, function_name := some name,
    timestamp := some 0 }

def functionResultEvent (mid : Nat) (name : String) : Event :=
  { etype := "function_result", message_id := some mid, function_name := some name,
    timestamp := some 0 }

def errorEvent (mid : Option Nat) (e : String) : Event :=
  { etype := "error", message_id := mid, error := some e, timestamp := some 0 }

def aiMessageCompletedEvent (mid : Nat) : Event :=
  { etype := "ai_message_completed", message_id := some mid, timestamp := some 0 }

def regenerationStartedEvent (mid : Nat) : Event :=
  { etype := "regeneration_started", message_id := some mid, timestamp := some 0 }

def regenerationCompletedEvent (mid : Nat) : Event :=
  { etype := "regeneration_completed", message_id := some mid, timestamp := some 0 }

def eventTypes (evs : List Event) : List String := evs.map (fun e => e.etype)

/-! ## ChatService.stream_response -/

/-- Embedding of the streaming loop of `ChatService.stream_response`
(chat_service.py:297): fold over the provider chunks, emitting an event per
content/function_call/function_result chunk and accumulating content deltas in
the local buffer only; a chunk of any other type but error (e.g. completion)
yields nothing; an error chunk emits an error event and stops the exchange.
Returns (events, accumulated content, stopped-with-error flag). -/
def streamLoop (aiId : Nat) (acc : String) : List Chunk → List Event × String × Bool
  | [] => ([], acc, false)
  | Chunk.content s :: rest =>
      let r := streamLoop aiId (acc ++ s) rest
      (contentDeltaEvent aiId s :: r.1, r.2)
  | Chunk.functionCall n _ :: rest =>
      let r := streamLoop aiId acc rest
      (functionCallEvent aiId n :: r.1, r.2)
  | Chunk.functionResult n _ :: rest =>
      let r := streamLoop aiId acc rest
      (functionResultEvent aiId n :: r.1, r.2)
  | Chunk.completion _ :: rest => streamLoop aiId acc rest
  | Chunk.error e :: _ => ([errorEvent (some aiId) e], acc, true)

def streamCoreEvents (pre : List Event) (userId aiId : Nat)
    (r : List Event × String × Bool) : List Event :=
  pre ++ [userMessageCreatedEvent userId, aiMessageStartedEvent aiId] ++ r.1 ++
    (if r.2.2 then [] else [aiMessageCompletedEvent aiId])

/-- The store after the loop: on a provider error the source yields the error
event and returns with no further write (the placeholder keeps its generating
status); on normal completion one finalize write sets the accumulated content,
completed status and `completed_at` (chat_service.py:327 and 337). -/
def streamCoreStore (st2 : Store) (aiId : Nat) (r : List Event × String × Bool) : Store :=
  if r.2.2 then st2
  else updateMessage st2 aiId
    { content := some r.2.1, status := some "completed", completed_at := some 0 }

/-- The body of `ChatService.stream_response` after session resolution
(chat_service.py:241): persist the user message (status defaulted to
completed), build the conversation context (handed to the provider, which the
chunk trace abstracts), create the generating placeholder, run the loop, and
finalize on success.  The session `last_activity` update writes no field
modelled in `Store` and emits no event. -/
def streamCore (st : Store) (sid : Nat) (content : String) (trace : List Chunk)
    (pre : List Event) : List Event × Store :=
  let userId := st.nextMsgId
  let st1 := (createMessage st sid "user" content none).2
  let aiId := st1.nextMsgId
  let st2 := (createMessage st1 sid "assistant" "" (some "generating")).2
  let r := streamLoop aiId "" trace
  (streamCoreEvents pre userId aiId r, streamCoreStore st2 aiId r)

/-- Embedding of `ChatService.stream_response` (chat_service.py:194) for one
exchange: resolve or create the session, then run `streamCore`.  An unknown
session id yields a single error event and no write. -/
def streamResponse (st : Store) (sessionId? : Option Nat) (content : String)
    (trace : List Chunk) : List Event × Store :=
  match sessionId? with
  | some sid =>
      if st.sessions.any (fun p => p.1 == sid) then streamCore st sid content trace []
      else ([errorEvent none "Session not found"], st)
  | none =>
      let sid := st.nextSessionId
      let st' := { st with
        sessions := st.sessions ++ [(sid, generateSessionTitle content 50)],
        nextSessionId := st.nextSessionId + 1 }
      streamCore st' sid content trace [sessionCreatedEvent sid]

/-! ## ChatService.regenerate_response -/

/-- The streaming loop of `ChatService.regenerate_response`
(chat_service.py:501): only content and error chunks have branches there. -/
def regenLoop (mid : Nat) (acc : String) : List Chunk → List Event × String × Bool
  | [] => ([], acc, false)
  | Chunk.content s :: rest =>
      let r := regenLoop mid (acc ++ s) rest
      (contentDeltaEvent mid s :: r.1, r.2)
  | Chunk.error e :: _ => ([errorEvent (some mid) e], acc, true)
  | _ :: rest => regenLoop mid acc rest

/-- Embedding of `ChatService.regenerate_response` (chat_service.py:443):
locate the target message, rebuild the context up to it (handed to the
provider, abstracted by the trace), set status regenerating, stream, and on
success write the new content with status completed and `regenerated_at`.
On a provider error the source yields the error event and returns with no
further write (the message keeps its regenerating status). -/
def regenerateResponse (st : Store) (mid : Nat) (trace : List Chunk) :
    List Event × Store :=
  match msgById st mid with
  | none => ([errorEvent none "Message not found"], st)
  | some _ =>
      let st1 := updateMessage st mid { status := some "regenerating" }
      let r := regenLoop mid "" trace
      let events := regenerationStartedEvent mid :: r.1
      if r.2.2 then (events, st1)
      else
        (events ++ [regenerationCompletedEvent mid],
         updateMessage st1 mid
           { content := some r.2.1, status := some "completed", regenerated_at := some 0 })

/-! ## The orchestrator step relation (claim C1) -/

/-- One orchestrator step: a whole stream or regenerate exchange, with an
arbitrary request and an arbitrary provider trace (error-ending included). -/
inductive OrchStep : Store → Store → Prop where
  | stream (st : Store) (sessionId? : Option Nat) (content : String) (trace : List Chunk) :
      OrchStep st (streamResponse st sessionId? content trace).2
  | regen (st : Store) (mid : Nat) (trace : List Chunk) :
      OrchStep st (regenerateResponse st mid trace).2

def Reachable (st : Store) : Prop := Relation.ReflTransGen OrchStep initStore st

/-- Number of messages of a session whose status is generating or
regenerating. -/
def generatingCount (st : Store) (sid : Nat) : Nat :=
  (st.messages.filter (fun m =>
      m.session_id == sid && (m.status == "generating" || m.status == "regenerating"))).length

/-! ## AIService: provider gateway -/

/-- What `AIService._stream_litellm_completion` (ai_service.py:114) can yield
before it either finishes or raises: content deltas, function calls (from
either the legacy or the tool-call shape) and completion markers.  It has no
branch that yields an error chunk. -/
inductive InnerYield where
  | content (s : String)
  | functionCall (name args : String)
  | completion (finishReason : String)
deriving Repr, DecidableEq

def innerToChunk : InnerYield → Chunk
  | InnerYield.content s => Chunk.content s
  | InnerYield.functionCall n a => Chunk.functionCall n a
  | InnerYield.completion r => Chunk.completion r

/-- Embedding of `AIService.stream_chat_completion` (ai_service.py:60): the
whole generator body, inner stream included, runs under one try/except, so its
denotation given the inner behaviour (a prefix of yields followed by an
optional raised failure, `failure?` carrying the exception text) is the
forwarded prefix followed by one error chunk exactly when a failure occurred.
The function is total: no exception escapes to the consumer. -/
def streamChatCompletion (yields : List InnerYield) (failure? : Option String) :
    List Chunk :=
  yields.map innerToChunk ++
    (match failure? with
     | some e => [Chunk.error e]
     | none => [])

/-! ## AIService.generate_suggestions -/

/-- The character set of the source's `lstrip('1234567890.-â€¢ ')`
(ai_service.py:285; the bytes are the UTF-8 of a bullet read back as
Latin-1, so Python sees exactly these three non-ASCII characters). -/
def enumMarkers : List Char := ['1', '2', '3', '4', '5', '6', '7', '8', '9', '0',
  '.', '-', 'â', '€', '¢', ' ']

/-- Per-line cleaning of `AIService.generate_suggestions`:
`line.strip().lstrip(markers)`. -/
def cleanSuggestionLine (l : List Char) : List Char :=
  (pyStripChars l).dropWhile (fun c => c ∈ enumMarkers)

/-- The parsing part of `AIService.generate_suggestions` (ai_service.py:280):
split the stripped completion on newlines, clean each line, and keep the lines
that are non-empty with more than 10 characters. -/
def parseSuggestionLines (resp : List Char) : List (List Char) :=
  ((pyStripChars resp).splitOn '\n').filterMap (fun line =>
    let c := cleanSuggestionLine line
    if c ≠ [] ∧ 10 < c.length then some c else none)

/-- Embedding of `AIService.generate_suggestions` (ai_service.py:255) as a
function of the model completion (`modelOutput?`, `none` when the underlying
single completion failed): parse when the completion is truthy, then keep at
most the first 5 suggestions. -/
def generateSuggestions (modelOutput? : Option String) : List String :=
  let suggestions :=
    match modelOutput? with
    | some r => if r ≠ "" then (parseSuggestionLines r.data).map String.mk else []
    | none => []
  suggestions.take 5

/-! ## AIService.summarize_conversation -/

/-- The conversation text built by `AIService.summarize_conversation`
(ai_service.py:342): one `Role: content` line per message, role title-cased. -/
def conversationText (msgs : List (String × String)) : List Char :=
  msgs.foldl (fun acc m =>
    acc ++ pyTitleCase m.1.data false ++ [':', ' '] ++ m.2.data ++ ['\n']) []

/-- The bounded conversation text fed into the summary prompt: hard-truncated
to 3000 characters plus three dots when longer (ai_service.py:349). -/
def boundedConversationText (msgs : List (String × String)) : List Char :=
  let t := conversationText msgs
  if 3000 < t.length then t.take 3000 ++ ['.', '.', '.'] else t

/-- Embedding of `AIService.summarize_conversation` (ai_service.py:334) as a
function of the model output for the bounded prompt (`none` when the single
completion failed).  A non-empty output longer than `maxLength` is cut to
`maxLength - 3` characters (Python slicing, negative when `maxLength < 3`)
plus three dots; a falsy output falls back to the fixed unavailable string. -/
def summarizeConversation (msgs : List (String × String)) (maxLength : Nat)
    (modelOutput? : Option String) : String :=
  let _prompt := boundedConversationText msgs
  let summary? :=
    match modelOutput? with
    | some s =>
        if s ≠ "" ∧ maxLength < s.length then
          some (String.mk (pySliceTo s.data ((maxLength : Int) - 3) ++ ['.', '.', '.']))
        else some s
    | none => none
  match summary? with
  | some s => if s = "" then "Conversation summary unavailable" else s
  | none => "Conversation summary unavailable"

/-! ## Claim C5 — session title generation -/

/-- C5 counterexample: on an input of 70 characters with no space, the
generated title is the whole 50-character cut plus three dots, 53 characters,
so the claimed bound of at most 50 characters fails. -/
theorem c5_title_counterexample :
    ¬ ((generateSessionTitle (String.mk (List.replicate 70 'a')) 50).length ≤ 50) := by
  decide

/-- C5 (amended): for every input the auto-derived title has at most 53
characters; empty input yields exactly New Chat; and whenever the stripped
input exceeds 50 characters the title is the first 50 characters cut back to
the last space among them when one exists (word boundary), suffixed with three
dots. -/
theorem c5_title_amended (s : String) :
    (generateSessionTitle s 50).length ≤ 53 ∧
    (s = "" → generateSessionTitle s 50 = "New Chat") ∧
    (50 < (pyStripChars s.data).length →
      (generateSessionTitle s 50).data =
        rsplitHead ((pyStripChars s.data).take 50) ++ ['.', '.', '.']) := by
  refine ⟨?_, ?_, ?_⟩
  · by_cases hc : s = ""
    · simp only [generateSessionTitle, hc, if_true]
      decide
    · simp only [generateSessionTitle, hc, if_false]
      by_cases hlen : 50 < (pyStripChars s.data).length
      · simp only [hlen, if_true]
        by_cases hnil : rsplitHead ((pyStripChars s.data).take 50) ++ ['.', '.', '.'] = []
        · simp only [hnil, if_true]
          decide
        · simp only [hnil, if_false]
          show (rsplitHead ((pyStripChars s.data).take 50) ++ ['.', '.', '.']).length ≤ 53
          rw [List.length_append]
          have h1 : (rsplitHead ((pyStripChars s.data).take 50)).length ≤ 50 := by
            calc (rsplitHead ((pyStripChars s.data).take 50)).length
                ≤ ((pyStripChars s.data).take 50).length := rsplitHead_length_le _
              _ ≤ 50 := by rw [List.length_take]; exact Nat.min_le_left _ _
          have h2 : (['.', '.', '.'] : List Char).length = 3 := rfl
          omega
      · simp only [hlen, if_false]
        by_cases hnil : pyStripChars s.data = []
        · simp only [hnil, if_true]
          decide
        · simp only [hnil, if_false]
          show (pyStripChars s.data).length ≤ 53
          omega
  · intro h
    simp [generateSessionTitle, h]
  · intro hlen
    have hc : s ≠ "" := by
      intro h
      rw [h] at hlen
      simp [pyStripChars] at hlen
    simp only [generateSessionTitle, hc, if_false, hlen, if_true]
    by_cases hnil : rsplitHead ((pyStripChars s.data).take 50) ++ ['.', '.', '.'] = []
    · simp [List.append_eq_nil] at hnil
    · simp only [hnil, if_false]

/-- C5 amended witness at the 70-character input: the stripped input exceeds
50, the title ends in three dots at the word-boundary cut, and the bound of 53
holds. -/
theorem c5_title_amended_witness :
    (generateSessionTitle (String.mk (List.replicate 70 'a')) 50).length ≤ 53 ∧
    (generateSessionTitle (String.mk (List.replicate 70 'a')) 50).data =
      rsplitHead ((pyStripChars (String.mk (List.replicate 70 'a')).data).take 50) ++
        ['.', '.', '.'] :=
  ⟨(c5_title_amended (String.mk (List.replicate 70 'a'))).1,
   (c5_title_amended (String.mk (List.replicate 70 'a'))).2.2 (by decide)⟩

/-! ## Claims C3 and C4 — context builders -/

/-- Store for claim C4: the spec's own test vector, a session holding
completed(user, a), generating(assistant, empty), completed(user, b) in
creation order. -/
def c4Store : Store :=
  { sessions := [(0, "s")],
    messages :=
      [{ id := 0, session_id := 0, role := "user", content := "a",
         status := "completed", created_at := 0 },
       { id := 1, session_id := 0, role := "assistant", content := "",
         status := "generating", created_at := 1 },
       { id := 2, session_id := 0, role := "user", content := "b",
         status := "completed", created_at := 2 }],
    nextMsgId := 3, nextSessionId := 1 }

/-- C4: the context builder keeps exactly the completed messages and at most
the 50-message window, but iterates `reversed` over an ascending-sorted list,
so on the spec's vector it returns the completed turns in descending creation
order, not the claimed ascending order. -/
theorem c4_context_descending :
    (getConversationContext c4Store 0 50).map (fun e => (e.role, e.content)) =
      [("user", "b"), ("user", "a")] ∧
    (getConversationContext c4Store 0 50).map (fun e => (e.role, e.content)) ≠
      [("user", "a"), ("user", "b")] := by
  decide

/-- Store for claim C3: a session holding completed(user, a), then the
regeneration target M (completed assistant x, id 1), then completed(user, b),
with unique ids and stable creation order. -/
def c3Store : Store :=
  { sessions := [(0, "s")],
    messages :=
      [{ id := 0, session_id := 0, role := "user", content := "a",
         status := "completed", created_at := 0 },
       { id := 1, session_id := 0, role := "assistant", content := "x",
         status := "completed", created_at := 1 },
       { id := 2, session_id := 0, role := "user", content := "b",
         status := "completed", created_at := 2 }],
    nextMsgId := 3, nextSessionId := 1 }

/-- C3: the regeneration context builder scans `reversed` over an
ascending-sorted list and stops at the first id match, so it returns the
completed messages created strictly AFTER the target (in descending order) and
excludes those created before it — the opposite of the claimed context. -/
theorem c3_context_after_target :
    (getConversationContextUpToMessage c3Store 0 1).map (fun e => (e.role, e.content)) =
      [("user", "b")] ∧
    (getConversationContextUpToMessage c3Store 0 1).map (fun e => (e.role, e.content)) ≠
      [("user", "a")] := by
  decide

/-! ## Claim C2 — failure finalization on the streaming path -/

/-- Store for claim C2: one existing session, no messages yet. -/
def c2Store : Store :=
  { sessions := [(0, "s")], messages := [], nextMsgId := 0, nextSessionId := 1 }

/-- C2: on a provider error mid-stream the orchestrator emits the error event
and stops, and the user message keeps status completed — but it performs NO
finalize write: the assistant placeholder is left with status generating and
no recorded error detail, where the claim requires exactly one write setting
status failed. -/
theorem c2_provider_error_no_finalize :
    ((streamResponse c2Store (some 0) "hi" [Chunk.error "rate limited"]).2.messages.map
        (fun m => (m.role, m.status, m.errorDetail)) =
      [("user", "completed", none), ("assistant", "generating", none)]) ∧
    (eventTypes (streamResponse c2Store (some 0) "hi" [Chunk.error "rate limited"]).1 =
      ["user_message_created", "ai_message_started", "error"]) := by
  decide

/-! ## Claim C1 — single-generation invariant over the step relation -/

/-- First step for claim C1: a fresh session is created and the provider
errors immediately; the placeholder is left generating. -/
def c1Step1 : Store := (streamResponse initStore none "hello" [Chunk.error "boom"]).2

/-- Second step for claim C1: a second exchange on the same session, again
ending in a provider error; a second placeholder is left generating. -/
def c1Step2 : Store := (streamResponse c1Step1 (some 0) "hello again" [Chunk.error "boom"]).2

/-- C1: a state reachable in two orchestrator steps (each one full streamed
exchange ending in a provider error) holds TWO messages of the same session
with status generating, violating the claimed at-most-one invariant. -/
theorem c1_single_generation_violated :
    Reachable c1Step2 ∧ generatingCount c1Step2 0 = 2 := by
  refine ⟨?_, by decide⟩
  have h1 : OrchStep initStore c1Step1 :=
    OrchStep.stream initStore none "hello" [Chunk.error "boom"]
  have h2 : OrchStep c1Step1 c1Step2 :=
    OrchStep.stream c1Step1 (some 0) "hello again" [Chunk.error "boom"]
  exact Relation.ReflTransGen.tail (Relation.ReflTransGen.tail Relation.ReflTransGen.refl h1) h2

/-! ## Claim C6 — delta accumulation -/

/-- Left-to-right concatenation of the content deltas of a provider trace. -/
def concatDeltas : List Chunk → String
  | [] => ""
  | Chunk.content s :: rest => s ++ concatDeltas rest
  | Chunk.functionCall _ _ :: rest => concatDeltas rest
  | Chunk.functionResult _ _ :: rest => concatDeltas rest
  | Chunk.completion _ :: rest => concatDeltas rest
  | Chunk.error _ :: rest => concatDeltas rest

theorem strAppendEmpty (s : String) : s ++ "" = s := by
  cases s with
  | mk d => show String.mk (d ++ []) = String.mk d
            rw [List.append_nil]

theorem strAppendAssoc (a b c : String) : a ++ b ++ c = a ++ (b ++ c) := by
  cases a with
  | mk da =>
      cases b with
      | mk db =>
          cases c with
          | mk dc =>
              show String.mk (da ++ db ++ dc) = String.mk (da ++ (db ++ dc))
              rw [List.append_assoc]

/-- On a trace without error chunks the streaming loop finishes without the
error flag and its buffer is the starting buffer followed by the concatenation
of all content deltas in order. -/
theorem streamLoop_no_error (aiId : Nat) (trace : List Chunk)
    (hne : ∀ e, Chunk.error e ∉ trace) (acc : String) :
    (streamLoop aiId acc trace).2.2 = false ∧
    (streamLoop aiId acc trace).2.1 = acc ++ concatDeltas trace := by
  induction trace generalizing acc with
  | nil => exact ⟨rfl, (strAppendEmpty acc).symm⟩
  | cons c rest ih =>
      have hrest : ∀ e, Chunk.error e ∉ rest := by
        intro e he
        exact hne e (List.mem_cons_of_mem _ he)
      cases c with
      | content s =>
          have h := ih hrest (acc ++ s)
          refine ⟨h.1, ?_⟩
          show (streamLoop aiId (acc ++ s) rest).2.1 = acc ++ (s ++ concatDeltas rest)
          rw [h.2, strAppendAssoc]
      | functionCall n a => exact ih hrest acc
      | functionResult n r => exact ih hrest acc
      | completion r => exact ih hrest acc
      | error e => exact absurd (List.mem_cons_self _ _) (fun h => hne e h)

/-- Locating the freshly updated assistant message: mapping the per-id patch
over older messages (ids different from `aiId`), the user message, and the
placeholder with id `aiId`, `find?` returns exactly the patched placeholder. -/
theorem msgById_update_append (L : List Message) (aiId : Nat)
    (hL : ∀ m ∈ L, m.id ≠ aiId) (u a : Message) (hu : u.id ≠ aiId) (ha : a.id = aiId)
    (p : MsgPatch) :
    ((L ++ [u] ++ [a]).map (fun m => if m.id == aiId then applyPatch p m else m)).find?
      (fun m => m.id == aiId) = some (applyPatch p a) := by
  induction L with
  | nil =>
      have hu' : (u.id == aiId) = false := by
        simp [hu]
      have ha' : (a.id == aiId) = true := by
        simp [ha]
      have hap : ((applyPatch p a).id == aiId) = true := by
        simp [applyPatch, ha]
      simp [hu', ha', hap, List.find?]
  | cons m L ih =>
      have hm : m.id ≠ aiId := hL m (List.mem_cons_self m L)
      have hm' : (m.id == aiId) = false := by
        simp [hm]
      have hL' : ∀ x ∈ L, x.id ≠ aiId := by
        intro x hx
        exact hL x (List.mem_cons_of_mem _ hx)
      simp only [List.cons_append, List.map_cons, hm', Bool.false_eq_true, if_false]
      rw [List.find?_cons_of_neg _ (by simp [hm])]
      exact ih hL'

theorem strEmptyAppend (s : String) : "" ++ s = s := by
  cases s with
  | mk d => show String.mk ([] ++ d) = String.mk d
            rfl

/-- C6: for every streamed exchange on a well-formed store whose provider
trace contains no error chunk, the single finalize write stores exactly the
left-to-right concatenation of all content deltas of the trace, with status
completed; the loop itself performs no store write (the buffer lives only in
`streamLoop`), so no intermediate delta is persisted individually. -/
theorem c6_delta_accumulation (st : Store) (sid : Nat) (content : String)
    (trace : List Chunk)
    (hwf : ∀ m ∈ st.messages, m.id < st.nextMsgId)
    (hs : st.sessions.any (fun p => p.1 == sid) = true)
    (hne : ∀ e, Chunk.error e ∉ trace) :
    msgById (streamResponse st (some sid) content trace).2 (st.nextMsgId + 1) =
      some { id := st.nextMsgId + 1, session_id := sid, role := "assistant",
             content := concatDeltas trace, status := "completed",
             errorDetail := none, created_at := st.nextMsgId + 1,
             completed_at := some 0, regenerated_at := none } := by
  have hloop := streamLoop_no_error (st.nextMsgId + 1) trace hne ""
  simp only [streamResponse, hs, if_true, streamCore, createMessage, streamCoreStore,
    hloop.1, Bool.false_eq_true, if_false, updateMessage, msgById]
  rw [hloop.2, strEmptyAppend]
  exact msgById_update_append st.messages (st.nextMsgId + 1)
    (fun m hm => Nat.ne_of_lt (Nat.lt_succ_of_lt (hwf m hm)))
    _ _ (Nat.ne_of_lt (Nat.lt_succ_self _)) rfl _

/-- Store for the C6 witness: one existing session, no messages yet. -/
def c6Store : Store :=
  { sessions := [(0, "s")], messages := [], nextMsgId := 0, nextSessionId := 1 }

/-- C6 witness at the spec's vector: deltas Hel, lo-space, World finalize to
content Hello World. -/
theorem c6_delta_accumulation_witness :
    msgById (streamResponse c6Store (some 0) "hi"
        [Chunk.content "Hel", Chunk.content "lo ", Chunk.content "World"]).2 1 =
      some { id := 1, session_id := 0, role := "assistant",
             content := "Hello World", status := "completed",
             errorDetail := none, created_at := 1,
             completed_at := some 0, regenerated_at := none } :=
  c6_delta_accumulation c6Store 0 "hi"
    [Chunk.content "Hel", Chunk.content "lo ", Chunk.content "World"]
    (by intro m hm; simp [c6Store] at hm)
    (by decide)
    (by intro e he; simp at he)

/-! ## Claim C7 — event sequence grammar -/

def isFinalEventType (t : String) : Bool :=
  t == "ai_message_completed" || t == "error"

/-- Middle events allowed by the claim's grammar: content deltas only. -/
def midOkClaim : List String → Bool
  | [] => false
  | t :: rest =>
      if rest.isEmpty then isFinalEventType t
      else t == "content_delta" && midOkClaim rest

/-- Middle events the code actually emits: content deltas and function calls. -/
def midOkAmended : List String → Bool
  | [] => false
  | t :: rest =>
      if rest.isEmpty then isFinalEventType t
      else (t == "content_delta" || t == "function_call") && midOkAmended rest

def tailOkClaim (ts : List String) : Bool :=
  match ts with
  | t1 :: t2 :: rest =>
      t1 == "user_message_created" && t2 == "ai_message_started" && midOkClaim rest
  | _ => false

def tailOkAmended (ts : List String) : Bool :=
  match ts with
  | t1 :: t2 :: rest =>
      t1 == "user_message_created" && t2 == "ai_message_started" && midOkAmended rest
  | _ => false

/-- The claim's event grammar: sessionCreated exactly when no session id was
supplied, then userMessageCreated, aiMessageStarted, contentDelta*, and one of
aiMessageCompleted or error. -/
def grammarOkClaim (newSession : Bool) (ts : List String) : Bool :=
  if newSession then
    match ts with
    | t :: rest => t == "session_created" && tailOkClaim rest
    | [] => false
  else tailOkClaim ts

/-- The amended grammar: as claimed, but functionCall events may appear among
the content deltas. -/
def grammarOkAmended (newSession : Bool) (ts : List String) : Bool :=
  if newSession then
    match ts with
    | t :: rest => t == "session_created" && tailOkAmended rest
    | [] => false
  else tailOkAmended ts

/-- The spec's event type discriminator set (snake_case as emitted by the
source). -/
def specEventTypes : List String :=
  ["session_created", "user_message_created", "ai_message_started", "content_delta",
   "function_call", "ai_message_completed", "error", "regeneration_started",
   "regeneration_completed"]

/-- Store for claim C7: one existing session, no messages yet. -/
def c7Store : Store :=
  { sessions := [(0, "s")], messages := [], nextMsgId := 0, nextSessionId := 1 }

/-- C7 counterexample: when the provider emits a function-call chunk, the
exchange emits a function_call event between aiMessageStarted and the final
event, so the claimed grammar (contentDelta* then completion) rejects the
actual event sequence. -/
theorem c7_event_sequence_counterexample :
    grammarOkClaim false (eventTypes (streamResponse c7Store (some 0) "hi"
      [Chunk.functionCall "f" "x", Chunk.content "ok"]).1) = false := by
  decide

theorem midOkAmended_cons (t : String) (l : List String)
    (ht : (t == "content_delta" || t == "function_call") = true)
    (hl : midOkAmended l = true) : midOkAmended (t :: l) = true := by
  cases l with
  | nil => simp [midOkAmended] at hl
  | cons x xs =>
      have hstep : midOkAmended (t :: x :: xs) =
          ((t == "content_delta" || t == "function_call") && midOkAmended (x :: xs)) := rfl
      rw [hstep, ht, hl]
      rfl

/-- The streaming loop's event types, followed by the final
ai_message_completed when the loop did not stop on an error, satisfy the
amended middle grammar, provided the trace has no function_result chunk. -/
theorem streamLoop_midOk (aiId : Nat) (trace : List Chunk)
    (hfr : ∀ n r, Chunk.functionResult n r ∉ trace) (acc : String) :
    midOkAmended (eventTypes (streamLoop aiId acc trace).1 ++
      (if (streamLoop aiId acc trace).2.2 then [] else ["ai_message_completed"])) = true := by
  induction trace generalizing acc with
  | nil => rfl
  | cons c rest ih =>
      have hrest : ∀ n r, Chunk.functionResult n r ∉ rest := by
        intro n r hr
        exact hfr n r (List.mem_cons_of_mem _ hr)
      cases c with
      | content s =>
          have h := ih hrest (acc ++ s)
          simp only [streamLoop, eventTypes, List.map_cons, List.cons_append]
          exact midOkAmended_cons _ _ rfl h
      | functionCall n a =>
          have h := ih hrest acc
          simp only [streamLoop, eventTypes, List.map_cons, List.cons_append]
          exact midOkAmended_cons _ _ rfl h
      | functionResult n r =>
          exact absurd (List.mem_cons_self _ _) (fun h => hfr n r h)
      | completion r => exact ih hrest acc
      | error e => rfl

/-- Every event the streaming loop emits on a trace without function_result
chunks has a spec discriminator and a timestamp. -/
theorem streamLoop_events_mem (aiId : Nat) (trace : List Chunk)
    (hfr : ∀ n r, Chunk.functionResult n r ∉ trace) (acc : String) :
    ∀ e ∈ (streamLoop aiId acc trace).1,
      e.etype ∈ specEventTypes ∧ e.timestamp = some 0 := by
  induction trace generalizing acc with
  | nil => intro e he; simp [streamLoop] at he
  | cons c rest ih =>
      have hrest : ∀ n r, Chunk.functionResult n r ∉ rest := by
        intro n r hr
        exact hfr n r (List.mem_cons_of_mem _ hr)
      cases c with
      | content s =>
          intro e he
          simp only [streamLoop, List.mem_cons] at he
          rcases he with rfl | he
          · exact ⟨by show "content_delta" ∈ specEventTypes; decide, rfl⟩
          · exact ih hrest (acc ++ s) e he
      | functionCall n a =>
          intro e he
          simp only [streamLoop, List.mem_cons] at he
          rcases he with rfl | he
          · exact ⟨by show "function_call" ∈ specEventTypes; decide, rfl⟩
          · exact ih hrest acc e he
      | functionResult n r =>
          exact absurd (List.mem_cons_self _ _) (fun h => hfr n r h)
      | completion r => exact ih hrest acc
      | error e =>
          intro x hx
          simp only [streamLoop, List.mem_cons] at hx
          rcases hx with rfl | hx
          · exact ⟨by show "error" ∈ specEventTypes; decide, rfl⟩
          · simp at hx

theorem eventTypes_append (a b : List Event) :
    eventTypes (a ++ b) = eventTypes a ++ eventTypes b :=
  List.map_append _ _ _

theorem streamCore_events_eq (st : Store) (sid : Nat) (content : String)
    (trace : List Chunk) (pre : List Event) :
    (streamCore st sid content trace pre).1 =
      pre ++ [userMessageCreatedEvent st.nextMsgId,
              aiMessageStartedEvent (st.nextMsgId + 1)] ++
        (streamLoop (st.nextMsgId + 1) "" trace).1 ++
        (if (streamLoop (st.nextMsgId + 1) "" trace).2.2 then []
         else [aiMessageCompletedEvent (st.nextMsgId + 1)]) := rfl

theorem tailOkAmended_fixed (l : List String) :
    tailOkAmended ("user_message_created" :: "ai_message_started" :: l) =
      midOkAmended l := by
  simp [tailOkAmended]

theorem grammarOkAmended_false (ts : List String) :
    grammarOkAmended false ts = tailOkAmended ts := rfl

theorem grammarOkAmended_true_cons (t : String) (ts : List String) :
    grammarOkAmended true (t :: ts) = (t == "session_created" && tailOkAmended ts) := rfl

theorem mem_four_parts {e : Event} {p1 p2 p3 p4 : List Event}
    (he : e ∈ p1 ++ p2 ++ p3 ++ p4) : e ∈ p1 ∨ e ∈ p2 ∨ e ∈ p3 ∨ e ∈ p4 := by
  rcases List.mem_append.1 he with h | h
  · rcases List.mem_append.1 h with h | h
    · rcases List.mem_append.1 h with h | h
      · exact Or.inl h
      · exact Or.inr (Or.inl h)
    · exact Or.inr (Or.inr (Or.inl h))
  · exact Or.inr (Or.inr (Or.inr h))

/-- C7 (amended): for every streamed exchange whose session resolution
succeeds (a supplied session id exists) and whose provider trace contains no
function_result chunk (the gateway never emits one), the emitted event types
match sessionCreated? (present exactly when no session id was supplied), then
userMessageCreated, aiMessageStarted, then content deltas and function calls
interleaved, then exactly one of aiMessageCompleted or error; and every
emitted event carries a spec discriminator and a timestamp. -/
theorem c7_event_sequence_amended (st : Store) (sessionId? : Option Nat)
    (content : String) (trace : List Chunk)
    (hres : ∀ sid, sessionId? = some sid → st.sessions.any (fun p => p.1 == sid) = true)
    (hfr : ∀ n r, Chunk.functionResult n r ∉ trace) :
    grammarOkAmended sessionId?.isNone
      (eventTypes (streamResponse st sessionId? content trace).1) = true ∧
    ∀ e ∈ (streamResponse st sessionId? content trace).1,
      e.etype ∈ specEventTypes ∧ e.timestamp = some 0 := by
  have hmid := streamLoop_midOk (st.nextMsgId + 1) trace hfr ""
  have hloopmem := streamLoop_events_mem (st.nextMsgId + 1) trace hfr ""
  cases sessionId? with
  | some sid =>
      have hs := hres sid rfl
      have hev : (streamResponse st (some sid) content trace).1 =
          (streamCore st sid content trace []).1 := by
        simp [streamResponse, hs]
      rw [hev, streamCore_events_eq]
      constructor
      · rw [show (some sid).isNone = false from rfl, grammarOkAmended_false]
        cases hflag : (streamLoop (st.nextMsgId + 1) "" trace).2.2 with
        | false =>
            rw [hflag] at hmid
            simp only [hflag, Bool.false_eq_true, if_false]
            simp only [eventTypes, List.map_append, List.map_cons, List.map_nil,
              List.nil_append, List.append_assoc, List.cons_append,
              userMessageCreatedEvent, aiMessageStartedEvent, aiMessageCompletedEvent] at hmid ⊢
            rw [tailOkAmended_fixed]
            exact hmid
        | true =>
            rw [hflag] at hmid
            simp only [hflag, if_true]
            simp only [eventTypes, List.map_append, List.map_cons, List.map_nil,
              List.nil_append, List.append_nil, List.append_assoc, List.cons_append,
              userMessageCreatedEvent, aiMessageStartedEvent, aiMessageCompletedEvent] at hmid ⊢
            rw [tailOkAmended_fixed]
            simp at hmid
            exact hmid
      · intro e he
        rcases mem_four_parts he with h | h | h | h
        · simp at h
        · rcases List.mem_cons.1 h with rfl | h
          · exact ⟨by show "user_message_created" ∈ specEventTypes; decide, rfl⟩
          · rcases List.mem_singleton.1 h with rfl
            exact ⟨by show "ai_message_started" ∈ specEventTypes; decide, rfl⟩
        · exact hloopmem e h
        · cases hflag : (streamLoop (st.nextMsgId + 1) "" trace).2.2 with
          | false =>
              rw [hflag] at h
              simp only [Bool.false_eq_true, if_false] at h
              rcases List.mem_singleton.1 h with rfl
              exact ⟨by show "ai_message_completed" ∈ specEventTypes; decide, rfl⟩
          | true =>
              rw [hflag] at h
              simp at h
  | none =>
      have hev : (streamResponse st none content trace).1 =
          (streamCore { st with
              sessions := st.sessions ++ [(st.nextSessionId, generateSessionTitle content 50)],
              nextSessionId := st.nextSessionId + 1 } st.nextSessionId content trace
            [sessionCreatedEvent st.nextSessionId]).1 := rfl
      rw [hev, streamCore_events_eq]
      constructor
      · rw [show (none : Option Nat).isNone = true from rfl]
        cases hflag : (streamLoop (st.nextMsgId + 1) "" trace).2.2 with
        | false =>
            rw [hflag] at hmid
            simp only [hflag, Bool.false_eq_true, if_false]
            simp only [eventTypes, List.map_append, List.map_cons, List.map_nil,
              List.nil_append, List.append_assoc, List.cons_append, List.singleton_append,
              sessionCreatedEvent, userMessageCreatedEvent, aiMessageStartedEvent,
              aiMessageCompletedEvent]
            rw [grammarOkAmended_true_cons, tailOkAmended_fixed]
            simp at hmid
            exact hmid
        | true =>
            rw [hflag] at hmid
            simp only [hflag, if_true]
            simp only [eventTypes, List.map_append, List.map_cons, List.map_nil,
              List.nil_append, List.append_nil, List.append_assoc, List.cons_append,
              List.singleton_append, sessionCreatedEvent, userMessageCreatedEvent,
              aiMessageStartedEvent, aiMessageCompletedEvent]
            rw [grammarOkAmended_true_cons, tailOkAmended_fixed]
            simp at hmid
            exact hmid
      · intro e he
        rcases mem_four_parts he with h | h | h | h
        · rcases List.mem_singleton.1 h with rfl
          exact ⟨by show "session_created" ∈ specEventTypes; decide, rfl⟩
        · rcases List.mem_cons.1 h with rfl | h
          · exact ⟨by show "user_message_created" ∈ specEventTypes; decide, rfl⟩
          · rcases List.mem_singleton.1 h with rfl
            exact ⟨by show "ai_message_started" ∈ specEventTypes; decide, rfl⟩
        · exact hloopmem e h
        · cases hflag : (streamLoop (st.nextMsgId + 1) "" trace).2.2 with
          | false =>
              rw [hflag] at h
              simp only [Bool.false_eq_true, if_false] at h
              rcases List.mem_singleton.1 h with rfl
              exact ⟨by show "ai_message_completed" ∈ specEventTypes; decide, rfl⟩
          | true =>
              rw [hflag] at h
              simp at h

/-- C7 amended witness: a concrete exchange on an existing session with a
content delta followed by a function call matches the amended grammar. -/
theorem c7_event_sequence_amended_witness :
    grammarOkAmended false (eventTypes (streamResponse c7Store (some 0) "hi"
      [Chunk.content "a", Chunk.functionCall "f" "x"]).1) = true :=
  (c7_event_sequence_amended c7Store (some 0) "hi"
    [Chunk.content "a", Chunk.functionCall "f" "x"]
    (by intro sid h; cases h; decide)
    (by intro n r h; simp at h)).1

/-! ## Claim C8 — suggestion generation -/

/-- C8: for every completion outcome of the underlying model, the suggest
operation returns at most 5 strings, and every returned string has length
strictly greater than 10 (lines whose cleaned remainder is at most 10
characters are discarded). -/
theorem c8_suggestions_bounded (modelOutput? : Option String) :
    (generateSuggestions modelOutput?).length ≤ 5 ∧
    ∀ s ∈ generateSuggestions modelOutput?, 10 < s.length := by
  constructor
  · exact List.length_take_le 5 _
  · intro s hs
    cases modelOutput? with
    | none => simp [generateSuggestions] at hs
    | some r =>
        by_cases hr : r = ""
        · simp [generateSuggestions, hr] at hs
        · simp only [generateSuggestions, hr, ne_eq, not_false_eq_true, if_true] at hs
          have hs' := List.take_subset 5 _ hs
          obtain ⟨c, hc, rfl⟩ := List.mem_map.1 hs'
          obtain ⟨line, _, hf⟩ := List.mem_filterMap.1 hc
          simp only [parseSuggestionLines] at hf
          by_cases h10 : cleanSuggestionLine line ≠ [] ∧ 10 < (cleanSuggestionLine line).length
          · rw [if_pos h10] at hf
            cases hf
            exact h10.2
          · rw [if_neg h10] at hf
            cases hf

/-- C8 witness: a concrete enumerated completion line yields one suggestion,
the cap of 5 holds, and the returned string is longer than 10 characters. -/
theorem c8_suggestions_bounded_witness :
    (generateSuggestions (some "1. This is a useful suggestion")).length ≤ 5 ∧
    (10 : Nat) < "This is a useful suggestion".length :=
  ⟨(c8_suggestions_bounded (some "1. This is a useful suggestion")).1,
   (c8_suggestions_bounded (some "1. This is a useful suggestion")).2
     "This is a useful suggestion" (by decide)⟩

/-! ## Claim C9 — summary truncation -/

/-- C9 counterexample: with maxLen 2 and model output of 5 characters the
negative Python slice keeps 4 characters and appends three dots, returning 7
characters, so the claimed bound of maxLen fails. -/
theorem c9_summary_counterexample :
    ¬ ((summarizeConversation [] 2 (some "short")).length ≤ 2) := by
  decide

theorem mk_append_dots_ne_empty (l : List Char) :
    String.mk (l ++ ['.', '.', '.']) ≠ "" := by
  intro h
  rw [String.ext_iff] at h
  simp at h

/-- C9 (amended): whenever maxLen is at least 3 and the model returns a
non-empty output, the summary has length at most maxLen (the raw output being
hard-truncated to maxLen minus 3 characters plus three dots when longer); and
the conversation text fed to the model is always bounded by 3003 characters
before the call. -/
theorem c9_summary_amended (msgs : List (String × String)) (maxLength : Nat)
    (out : String) (h3 : 3 ≤ maxLength) (hne : out ≠ "") :
    (summarizeConversation msgs maxLength (some out)).length ≤ maxLength ∧
    (boundedConversationText msgs).length ≤ 3003 := by
  constructor
  · by_cases hlen : maxLength < out.length
    · have hcond : out ≠ "" ∧ maxLength < out.length := ⟨hne, hlen⟩
      have hpos : (0 : Int) ≤ (maxLength : Int) - 3 := by omega
      have htn : (((maxLength : Int) - 3)).toNat = maxLength - 3 := by omega
      have hred : summarizeConversation msgs maxLength (some out) =
          String.mk (out.data.take (maxLength - 3) ++ ['.', '.', '.']) := by
        simp only [summarizeConversation, pySliceTo]
        rw [if_pos hcond, if_pos hpos, htn]
        exact if_neg (mk_append_dots_ne_empty _)
      rw [hred]
      have h1 : (out.data.take (maxLength - 3)).length ≤ maxLength - 3 :=
        List.length_take_le _ _
      have h2 : (String.mk (out.data.take (maxLength - 3) ++ ['.', '.', '.'])).length =
          (out.data.take (maxLength - 3)).length + 3 := by
        show (out.data.take (maxLength - 3) ++ ['.', '.', '.']).length =
          (out.data.take (maxLength - 3)).length + 3
        rw [List.length_append]
        rfl
      omega
    · have hcond : ¬ (out ≠ "" ∧ maxLength < out.length) := by
        intro h
        exact hlen h.2
      have hred : summarizeConversation msgs maxLength (some out) = out := by
        simp only [summarizeConversation]
        rw [if_neg hcond]
        exact if_neg hne
      rw [hred]
      omega
  · unfold boundedConversationText
    by_cases hb : 3000 < (conversationText msgs).length
    · simp only [hb, if_true]
      rw [List.length_append]
      have := List.length_take_le 3000 (conversationText msgs)
      have hdots : (['.', '.', '.'] : List Char).length = 3 := rfl
      omega
    · simp only [hb, if_false]
      omega

/-- C9 amended witness at maxLen 10 and a 21-character model output: the
summary is truncated to 10 characters and the empty conversation text is
bounded. -/
theorem c9_summary_amended_witness :
    (summarizeConversation [] 10 (some "a fairly long summary")).length ≤ 10 ∧
    (boundedConversationText []).length ≤ 3003 :=
  c9_summary_amended [] 10 "a fairly long summary" (by decide) (by decide)

/-! ## Claim C10 — gateway streaming totality -/

theorem innerToChunk_not_err (y : InnerYield) : (innerToChunk y).isErr = false := by
  cases y <;> rfl

/-- C10: the provider gateway's streaming operation is total (its denotation
is a plain list of chunks; the one try/except around the whole generator body
converts any internal failure into data), at most one yielded chunk is an
error chunk, any error chunk is the final chunk of the stream, and when a
failure occurred the stream ends with exactly the error chunk carrying the
failure text. -/
theorem c10_gateway_error_totality (yields : List InnerYield) (failure? : Option String) :
    ((streamChatCompletion yields failure?).filter Chunk.isErr).length ≤ 1 ∧
    (∀ c ∈ streamChatCompletion yields failure?, c.isErr = true →
      (streamChatCompletion yields failure?).getLast? = some c) ∧
    (∀ e, failure? = some e →
      (streamChatCompletion yields failure?).getLast? = some (Chunk.error e)) := by
  have hmap : (yields.map innerToChunk).filter Chunk.isErr = [] := by
    rw [List.filter_eq_nil_iff]
    intro c hc
    obtain ⟨y, _, rfl⟩ := List.mem_map.1 hc
    rw [innerToChunk_not_err]
    exact Bool.false_ne_true
  refine ⟨?_, ?_, ?_⟩
  · cases failure? with
    | none =>
        show ((yields.map innerToChunk ++ []).filter Chunk.isErr).length ≤ 1
        rw [List.append_nil, hmap]
        decide
    | some e =>
        show ((yields.map innerToChunk ++ [Chunk.error e]).filter Chunk.isErr).length ≤ 1
        rw [List.filter_append, hmap]
        simp [Chunk.isErr]
  · intro c hc herr
    cases failure? with
    | none =>
        rw [show streamChatCompletion yields none = yields.map innerToChunk ++ [] from rfl,
          List.append_nil] at hc
        obtain ⟨y, _, rfl⟩ := List.mem_map.1 hc
        rw [innerToChunk_not_err] at herr
        cases herr
    | some e =>
        rcases List.mem_append.1 hc with h | h
        · obtain ⟨y, _, rfl⟩ := List.mem_map.1 h
          rw [innerToChunk_not_err] at herr
          cases herr
        · rcases List.mem_singleton.1 h with rfl
          exact List.getLast?_concat _
  · intro e hfe
    subst hfe
    exact List.getLast?_concat _

/-- C10 witness: one content yield followed by an internal failure ends the
stream with exactly the error chunk carrying the failure text. -/
theorem c10_gateway_error_totality_witness :
    (streamChatCompletion [InnerYield.content "x"] (some "boom")).getLast? =
      some (Chunk.error "boom") :=
  (c10_gateway_error_totality [InnerYield.content "x"] (some "boom")).2.2 "boom" rfl
